import Mathlib

/-!
Verification of the thermal_logger acquisition-and-session pipeline.

Shallow embedding of the core of `src/main.py` (session directory
numbering, atomic image persistence, hotspot analysis, the acquisition
loop's per-tick mode selection and autosave gate) and of the telemetry
line parser shared by `src/serial_logger.py` and `src/arduino_reader.py`.

Directory and file names are modelled as `List Char`; wall-clock times
and pixel values as rationals; the per-call behaviour of the external
image encoder/decoder (`cv2.imwrite` / `cv2.imread`) is an explicit
parameter of the model, since the Python code branches only on its
observable outcome (return flag, file size, decodability).
-/

namespace ThermalLogger

/-! ### Atomic image save (`atomic_save`, main.py lines 86-106)

The Python function creates a temp file with `tempfile.mkstemp` in the
target directory, encodes the image into it with `cv2.imwrite`, checks
the encoder's return flag and the file size, re-decodes the file with
`cv2.imread` as verification, then `os.replace`s it onto the final path;
a `finally` block removes the temp file whenever it still exists.  We
model the filesystem as the content at the final path plus a flag for
the temp file, and the encoder/rename behaviour as explicit arguments. -/

/-- Outcome of the `cv2.imwrite` call into the temp file: the boolean it
returned, the resulting file size, and whether `cv2.imread` can re-decode
the written bytes (`probe is not None`). -/
structure TmpWrite where
  ok : Bool
  size : Nat
  decodable : Bool
  deriving DecidableEq, Repr

/-- Behaviour of the encoder on this call: it either raises an exception
or terminates having produced a `TmpWrite` observation. -/
inductive EncArg where
  | throws : EncArg
  | writes : TmpWrite → EncArg
  deriving DecidableEq, Repr

/-- How a call to `atomic_save` terminates: `True` returned, `False`
returned, or an exception propagated to the caller. -/
inductive SaveResult where
  | success : SaveResult
  | failed : SaveResult
  | excn : SaveResult
  deriving DecidableEq, Repr

/-- Observable directory state: the file at the final path (`none` when
absent) and whether the temp file exists. -/
structure FS where
  finalFile : Option TmpWrite
  tmpExists : Bool
  deriving DecidableEq, Repr

/-- A written file is a fully valid image: non-zero size and re-decodable. -/
def validImage (w : TmpWrite) : Prop := w.size ≠ 0 ∧ w.decodable = true

instance (w : TmpWrite) : Decidable (validImage w) := by
  unfold validImage; infer_instance

/-- Model of `atomic_save` (main.py lines 86-106).  `enc` is the encoder's
behaviour on this call, `replaceOk` whether `os.replace` succeeds, `old`
the file previously at the final path.  Returns the call's result and the
directory state after the call (including the `finally` cleanup). -/
def atomic_save (enc : EncArg) (replaceOk : Bool) (old : Option TmpWrite) :
    SaveResult × FS :=
  match enc with
  | .throws => (.excn, ⟨old, false⟩)
  | .writes w =>
    if w.ok = false ∨ w.size = 0 then (.failed, ⟨old, false⟩)
    else if w.decodable = false then (.failed, ⟨old, false⟩)
    else if replaceOk then (.success, ⟨some w, false⟩)
    else (.excn, ⟨old, false⟩)

/-- Sequence of directory states visible during a call to `atomic_save`:
after `mkstemp`, after the encoder write, after each cleanup / the
`os.replace`, and after the `finally` block.  The final path is only ever
touched by the single `os.replace`. -/
def atomic_save_trace (enc : EncArg) (replaceOk : Bool) (old : Option TmpWrite) :
    List FS :=
  ⟨old, true⟩ ::
  match enc with
  | .throws => [⟨old, true⟩, ⟨old, false⟩]
  | .writes w =>
    if w.ok = false ∨ w.size = 0 then [⟨old, true⟩, ⟨old, false⟩]
    else if w.decodable = false then [⟨old, true⟩, ⟨old, false⟩]
    else if replaceOk then [⟨old, true⟩, ⟨some w, false⟩]
    else [⟨old, true⟩, ⟨old, true⟩, ⟨old, false⟩]

/-- Claim C1: whenever the encoder write or the verification fails,
`atomic_save` returns failure, the temp file is deleted and the final
path is unchanged; whenever it returns success a fully valid new image
is at the final path; and in every intermediate state of the call the
final path holds either the old content or a fully valid new image,
never a zero-byte or partial file. -/
theorem atomic_save_atomic (enc : EncArg) (replaceOk : Bool)
    (old : Option TmpWrite) :
    ((atomic_save enc replaceOk old).1 = .failed →
      (atomic_save enc replaceOk old).2.finalFile = old ∧
      (atomic_save enc replaceOk old).2.tmpExists = false) ∧
    ((atomic_save enc replaceOk old).1 = .success →
      ∃ w, enc = .writes w ∧ validImage w ∧
        (atomic_save enc replaceOk old).2.finalFile = some w) ∧
    (∀ fs ∈ atomic_save_trace enc replaceOk old,
      fs.finalFile = old ∨ ∃ w, fs.finalFile = some w ∧ validImage w) := by
  rcases enc with _ | w
  · simp [atomic_save, atomic_save_trace]
  · by_cases h1 : w.ok = false ∨ w.size = 0
    · simp [atomic_save, atomic_save_trace, h1]
    · by_cases h2 : w.decodable = false
      · simp [atomic_save, atomic_save_trace, h1, h2]
      · rcases hr : replaceOk with _ | _
        · simp [atomic_save, atomic_save_trace, h1, h2]
        · push_neg at h1
          refine ⟨by simp [atomic_save, h1, h2], ?_, ?_⟩
          · intro _
            exact ⟨w, rfl, ⟨h1.2, by simpa using h2⟩,
              by simp [atomic_save, h1, h2]⟩
          · intro fs hfs
            simp [atomic_save_trace, h1, h2] at hfs
            rcases hfs with h | h
            · exact Or.inl (by simp [h])
            · exact Or.inr ⟨w, by simp [h], ⟨h1.2, by simpa using h2⟩⟩

/-- Witness for C1: a successful call with a well-formed write installs
that image at the final path. -/
theorem atomic_save_atomic_witness :
    ∃ w, EncArg.writes ⟨true, 3, true⟩ = .writes w ∧ validImage w ∧
      (atomic_save (.writes ⟨true, 3, true⟩) true none).2.finalFile = some w :=
  (atomic_save_atomic (.writes ⟨true, 3, true⟩) true none).2.1 (by decide)

/-- Claim C10: after any call to `atomic_save` — success, failure, or
propagated encoder exception — the temp file no longer exists, and the
only possible visible change is the complete new image at the final path. -/
theorem atomic_save_frame_effect (enc : EncArg) (replaceOk : Bool)
    (old : Option TmpWrite) :
    (atomic_save enc replaceOk old).2.tmpExists = false ∧
    ((atomic_save enc replaceOk old).2.finalFile = old ∨
      ((atomic_save enc replaceOk old).1 = .success ∧
        ∃ w, (atomic_save enc replaceOk old).2.finalFile = some w ∧
          validImage w)) := by
  rcases enc with _ | w
  · simp [atomic_save]
  · by_cases h1 : w.ok = false ∨ w.size = 0
    · simp [atomic_save, h1]
    · by_cases h2 : w.decodable = false
      · simp [atomic_save, h1, h2]
      · rcases hr : replaceOk with _ | _
        · simp [atomic_save, h1, h2]
        · push_neg at h1
          refine ⟨by simp [atomic_save, h1, h2], Or.inr ?_⟩
          exact ⟨by simp [atomic_save, h1, h2],
            w, by simp [atomic_save, h1, h2], ⟨h1.2, by simpa using h2⟩⟩

/-! ### Session directory numbering (`next_launch_dir`, main.py lines 54-68)

The Python function lists `root`, keeps the entries that are directories
and fully match `launch(\d{2})`, collects the parsed numbers, takes
`max(nums) + 1` (or `1` when no entry matched), and creates a directory
named `f"launch{n:02d}"`.  Names are modelled as `List Char`; a listing
entry carries its `os.path.isdir` status. -/

/-- Model of `re.fullmatch(r"launch(\d{2})", name)` followed by
`int(m.group(1))`: exactly the prefix `launch` and two decimal digits. -/
def parseLaunchName : List Char → Option Nat
  | ['l', 'a', 'u', 'n', 'c', 'h', a, b] =>
    if a.isDigit ∧ b.isDigit then some ((a.toNat - 48) * 10 + (b.toNat - 48))
    else none
  | _ => none

/-- Decimal digits of a natural number, most significant first, computed
with explicit fuel so that it reduces in the kernel. -/
def natDigitsAux : Nat → Nat → List Char
  | 0, _ => []
  | fuel + 1, n =>
    if n < 10 then [Char.ofNat (48 + n)]
    else natDigitsAux fuel (n / 10) ++ [Char.ofNat (48 + n % 10)]

/-- Decimal representation of a natural number as characters. -/
def natStr (n : Nat) : List Char := natDigitsAux (n + 1) n

/-- Model of the Python format `f"{n:02d}"`: decimal digits, left-padded
with one zero when `n` has a single digit.  Numbers of three or more
digits are rendered in full, wider than two characters. -/
def pad2 (n : Nat) : List Char := if n < 10 then '0' :: natStr n else natStr n

/-- Directory name `f"launch{n:02d}"` created for session number `n`. -/
def launchName (n : Nat) : List Char := ['l', 'a', 'u', 'n', 'c', 'h'] ++ pad2 n

/-- One entry of `os.listdir(root)` together with its `os.path.isdir`
status. -/
structure DirEntry where
  name : List Char
  isDir : Bool
  deriving DecidableEq, Repr

/-- Session numbers collected by the scan over the listing: directories
only, fully matching the two-digit pattern. -/
def launchNums (entries : List DirEntry) : List Nat :=
  entries.filterMap fun e => if e.isDir then parseLaunchName e.name else none

/-- Model of `n = max(nums) + 1 if nums else 1` in `next_launch_dir`. -/
def nextLaunchNum (entries : List DirEntry) : Nat :=
  let ns := launchNums entries
  if ns.isEmpty then 1 else ns.foldl Nat.max 0 + 1

/-- Model of `next_launch_dir` (main.py lines 54-68): the name of the
session directory created for the given root listing. -/
def next_launch_dir (entries : List DirEntry) : List Char :=
  launchName (nextLaunchNum entries)

/-- The seven session directories `launch01` .. `launch07`. -/
def sevenLaunchDirs : List DirEntry :=
  [⟨"launch01".data, true⟩, ⟨"launch02".data, true⟩, ⟨"launch03".data, true⟩,
   ⟨"launch04".data, true⟩, ⟨"launch05".data, true⟩, ⟨"launch06".data, true⟩,
   ⟨"launch07".data, true⟩]

/-- Claim C2: scanning a root containing `launch01` .. `launch07` plus one
further directory whose name does not match the session pattern yields
session number 8 and creates `launch08`; the unrelated directory is
ignored. -/
theorem next_launch_dir_scenario (extra : DirEntry)
    (hextra : parseLaunchName extra.name = none) :
    next_launch_dir (sevenLaunchDirs ++ [extra]) = "launch08".data ∧
    nextLaunchNum (sevenLaunchDirs ++ [extra]) = 8 := by
  have hnums : launchNums (sevenLaunchDirs ++ [extra]) = [1, 2, 3, 4, 5, 6, 7] := by
    have hbase : launchNums sevenLaunchDirs = [1, 2, 3, 4, 5, 6, 7] := by decide
    have hextra2 : launchNums [extra] = [] := by
      simp [launchNums, hextra]
    simp only [launchNums] at hbase hextra2 ⊢
    rw [List.filterMap_append, hbase, hextra2, List.append_nil]
  have hnum : nextLaunchNum (sevenLaunchDirs ++ [extra]) = 8 := by
    simp only [nextLaunchNum, hnums]
    decide
  exact ⟨by simp only [next_launch_dir, hnum]; decide, hnum⟩

/-- Witness for C2: the unrelated directory `misc` is ignored and
`launch08` is created. -/
theorem next_launch_dir_scenario_witness :
    next_launch_dir (sevenLaunchDirs ++ [⟨"misc".data, true⟩]) = "launch08".data ∧
    nextLaunchNum (sevenLaunchDirs ++ [⟨"misc".data, true⟩]) = 8 :=
  next_launch_dir_scenario ⟨"misc".data, true⟩ (by decide)

/-- Counterexample to claim C3: starting from a root containing only
`launch99`, the next session creates `launch100` (the two-digit format
widens); the session after that does not see `launch100` — the scan
pattern matches exactly two digits — and creates `launch100` again,
reusing the previous session's directory. -/
theorem next_launch_dir_reuse :
    next_launch_dir [⟨"launch99".data, true⟩] = "launch100".data ∧
    next_launch_dir [⟨"launch99".data, true⟩,
      ⟨next_launch_dir [⟨"launch99".data, true⟩], true⟩] = "launch100".data := by
  decide

/-- Any starting accumulator bounds `List.foldl Nat.max` from below. -/
theorem le_foldl_max (l : List Nat) (a : Nat) : a ≤ l.foldl Nat.max a := by
  induction l generalizing a with
  | nil => exact Nat.le_refl a
  | cons b t ih => exact Nat.le_trans (Nat.le_max_left a b) (ih (Nat.max a b))

/-- Every member of the list bounds `List.foldl Nat.max` from below. -/
theorem mem_le_foldl_max (l : List Nat) (a m : Nat) (h : m ∈ l) :
    m ≤ l.foldl Nat.max a := by
  induction l generalizing a with
  | nil => cases h
  | cons b t ih =>
    rcases List.mem_cons.mp h with rfl | h2
    · exact Nat.le_trans (Nat.le_max_right a m) (le_foldl_max t _)
    · exact ih _ h2

/-- Parsed numbers of matching directory entries land in `launchNums`. -/
theorem mem_launchNums {entries : List DirEntry} {e : DirEntry} {m : Nat}
    (he : e ∈ entries) (hdir : e.isDir = true)
    (hp : parseLaunchName e.name = some m) : m ∈ launchNums entries := by
  refine List.mem_filterMap.mpr ⟨e, he, ?_⟩
  rw [hdir]
  simpa using hp

/-- Every scanned session number is strictly below the new session number. -/
theorem launchNums_lt_next {entries : List DirEntry} {m : Nat}
    (hm : m ∈ launchNums entries) : m < nextLaunchNum entries := by
  have hne : (launchNums entries).isEmpty = false := by
    cases hns : launchNums entries with
    | nil => rw [hns] at hm; cases hm
    | cons b t => rfl
  simp only [nextLaunchNum, hne, if_neg Bool.false_ne_true]
  exact Nat.lt_succ_of_le (mem_le_foldl_max _ 0 m hm)

/-- Round trip of the two-digit format through the scan pattern, valid
exactly while the session number still has at most two digits. -/
theorem parse_launchName (n : Nat) (h : n ≤ 99) :
    parseLaunchName (launchName n) = some n := by
  have hall : ∀ k : Fin 100, parseLaunchName (launchName k.val) = some k.val := by
    decide
  exact hall ⟨n, Nat.lt_succ_of_le h⟩

/-- Claim C3 as amended: as long as the new session number still fits in
two digits, the created directory differs from every directory already in
the listing and the session number strictly exceeds every scanned session
number.  (By `next_launch_dir_reuse`, both guarantees break down at
session number 100, where the created name stops matching the scan
pattern and the directory is reused.) -/
theorem next_launch_dir_fresh (entries : List DirEntry)
    (hle : nextLaunchNum entries ≤ 99) :
    (∀ e ∈ entries, e.isDir = true → e.name ≠ next_launch_dir entries) ∧
    (∀ e ∈ entries, ∀ m, e.isDir = true → parseLaunchName e.name = some m →
      m < nextLaunchNum entries) := by
  constructor
  · intro e he hdir heq
    have hp : parseLaunchName e.name = some (nextLaunchNum entries) := by
      rw [heq]
      exact parse_launchName _ hle
    exact absurd (launchNums_lt_next (mem_launchNums he hdir hp))
      (Nat.lt_irrefl _)
  · intro e he m hdir hp
    exact launchNums_lt_next (mem_launchNums he hdir hp)

/-- Witness for the amended C3: with `launch01` present, the new session
directory (which is `launch02`) is not the existing `launch01`. -/
theorem next_launch_dir_fresh_witness :
    "launch01".data ≠ next_launch_dir [⟨"launch01".data, true⟩] :=
  (next_launch_dir_fresh [⟨"launch01".data, true⟩] (by decide)).1
    ⟨"launch01".data, true⟩ (by simp) rfl

/-! ### Hotspot analysis (`hottest_box`, main.py lines 73-84)

The Python function blurs the metric frame with `cv2.GaussianBlur(img,
(3, 3), 0)`, locates the maximum of the blurred image with
`cv2.minMaxLoc` (which scans rows in raster order and keeps the first
strict maximum), clips a `max(2, box // 2)`-half-width box to the frame
and computes min/max/mean over the blurred box region.  The blur is
modelled as convolution with an abstract 3×3 kernel (OpenCV derives the
positive, unit-sum weights from the kernel size) over reflected borders;
pixel values are rationals. -/

/-- Index reflection at the border, model of OpenCV's default
`BORDER_REFLECT_101`; only offsets of at most one pixel occur here. -/
def reflect101 (n : Nat) (i : Int) : Nat :=
  if n ≤ 1 then 0
  else if i < 0 then min (n - 1) (Int.toNat (-i))
  else if (n : Int) ≤ i then n - 1 - min (n - 1) (Int.toNat (i - (n - 1)))
  else Int.toNat i

/-- Convolution of the frame with a 3×3 kernel, model of
`cv2.GaussianBlur(img, (3, 3), 0)` with the kernel weights abstract. -/
def blur (h w : Nat) (k : Fin 3 → Fin 3 → ℚ) (img : Nat → Nat → ℚ)
    (y x : Nat) : ℚ :=
  Finset.univ.sum fun i : Fin 3 => Finset.univ.sum fun j : Fin 3 =>
    k i j * img (reflect101 h ((y : Int) + (i : Int) - 1))
                (reflect101 w ((x : Int) + (j : Int) - 1))

/-- Total mass of the smoothing kernel (1 for a Gaussian kernel). -/
def ksum (k : Fin 3 → Fin 3 → ℚ) : ℚ :=
  Finset.univ.sum fun i : Fin 3 => Finset.univ.sum fun j : Fin 3 => k i j

/-- Raster-order index list `(y, x)` of an h×w frame, rows outermost —
the scan order of `cv2.minMaxLoc`. -/
def rasterIdxs (h w : Nat) : List (Nat × Nat) :=
  (List.range h).flatMap fun y => (List.range w).map fun x => (y, x)

/-- Location `(y, x)` of the maximum of `f` over the frame, first
occurrence in raster order — the `maxLoc` output of `cv2.minMaxLoc`.
For a non-empty frame `(0, 0)` is the first raster index, so folding
from it is the scan from the first pixel. -/
def maxLoc (h w : Nat) (f : Nat → Nat → ℚ) : Nat × Nat :=
  (rasterIdxs h w).foldl
    (fun best q => if f best.1 best.2 < f q.1 q.2 then q else best) (0, 0)

/-- Half-width `max(2, box // 2)` of the hotspot box. -/
def hotHalf (box : Nat) : Nat := max 2 (box / 2)

/-- Hotspot result: the clipped box and its statistics, the fields of the
dict returned by `hottest_box`. -/
structure ROI where
  x1 : Int
  y1 : Int
  x2 : Int
  y2 : Int
  roiMin : ℚ
  roiMax : ℚ
  roiMean : ℚ

/-- Pixel values of `b` inside the half-open box `[x1, x2) × [y1, y2)`,
the array `img[y1:y2, x1:x2]`. -/
def roiVals (b : Nat → Nat → ℚ) (x1 y1 x2 y2 : Int) : List ℚ :=
  (List.range (y2 - y1).toNat).flatMap fun dy : Nat =>
    (List.range (x2 - x1).toNat).map fun dx : Nat =>
      b (y1 + (dy : Int)).toNat (x1 + (dx : Int)).toNat

/-- Minimum of a list of values (`roi.min()`), 0 on the empty array
(where NumPy raises instead). -/
def listMin : List ℚ → ℚ
  | [] => 0
  | v :: vs => vs.foldl min v

/-- Maximum of a list of values (`roi.max()`), 0 on the empty array. -/
def listMax : List ℚ → ℚ
  | [] => 0
  | v :: vs => vs.foldl max v

/-- Mean of a list of values (`roi.mean()`). -/
def listMean (l : List ℚ) : ℚ := l.sum / l.length

/-- Model of `hottest_box` (main.py lines 73-84). -/
def hottest_box (h w : Nat) (k : Fin 3 → Fin 3 → ℚ) (img : Nat → Nat → ℚ)
    (box : Nat) : ROI :=
  let b := blur h w k img
  let loc := maxLoc h w b
  let cy : Int := loc.1
  let cx : Int := loc.2
  let half : Int := hotHalf box
  let x1 := max 0 (cx - half)
  let y1 := max 0 (cy - half)
  let x2 := min (w : Int) (cx + half)
  let y2 := min (h : Int) (cy + half)
  let vals := roiVals b x1 y1 x2 y2
  ⟨x1, y1, x2, y2, listMin vals, listMax vals, listMean vals⟩

/-- A fold that at each step keeps either the accumulator or the list
element preserves any property shared by the start and all elements. -/
theorem foldl_pick_prop (f : Nat → Nat → ℚ) (P : Nat × Nat → Prop) :
    ∀ (l : List (Nat × Nat)) (b : Nat × Nat), P b → (∀ q ∈ l, P q) →
      P (l.foldl (fun best q => if f best.1 best.2 < f q.1 q.2 then q else best) b) := by
  intro l
  induction l with
  | nil => intro b hb _; exact hb
  | cons q t ih =>
    intro b hb hl
    simp only [List.foldl_cons]
    by_cases hc : f b.1 b.2 < f q.1 q.2
    · rw [if_pos hc]
      exact ih q (hl q (List.mem_cons_self q t)) fun p hp =>
        hl p (List.mem_cons_of_mem q hp)
    · rw [if_neg hc]
      exact ih b hb fun p hp => hl p (List.mem_cons_of_mem q hp)

/-- Raster indices lie inside the frame. -/
theorem rasterIdxs_bounds {h w : Nat} {q : Nat × Nat}
    (hq : q ∈ rasterIdxs h w) : q.1 < h ∧ q.2 < w := by
  obtain ⟨y, hy, hq2⟩ := List.mem_flatMap.mp hq
  obtain ⟨x, hx, rfl⟩ := List.mem_map.mp hq2
  exact ⟨List.mem_range.mp hy, List.mem_range.mp hx⟩

/-- The reported maximum location lies inside a non-empty frame. -/
theorem maxLoc_lt (h w : Nat) (f : Nat → Nat → ℚ) (hh : 0 < h) (hw : 0 < w) :
    (maxLoc h w f).1 < h ∧ (maxLoc h w f).2 < w := by
  exact foldl_pick_prop f (fun q => q.1 < h ∧ q.2 < w) (rasterIdxs h w) (0, 0)
    ⟨hh, hw⟩ fun q hq => rasterIdxs_bounds hq

/-- Summing a constant over a range multiplies it out. -/
theorem sum_map_const_range (n c : Nat) :
    ((List.range n).map fun _ => c).sum = n * c := by
  induction n with
  | zero => simp
  | succ m ih =>
    rw [List.range_succ, List.map_append, List.sum_append]
    simp [ih, Nat.succ_mul]

/-- Number of pixels inside the clipped box. -/
theorem roiVals_length (b : Nat → Nat → ℚ) (x1 y1 x2 y2 : Int) :
    (roiVals b x1 y1 x2 y2).length = (y2 - y1).toNat * (x2 - x1).toNat := by
  simp only [roiVals, List.length_flatMap, Function.comp_def, List.length_map,
    List.length_range]
  exact sum_map_const_range _ _

/-- Claim C4: for every non-empty frame and every requested box size, the
hotspot box has half-width at least 2, lies within the frame bounds,
covers at least one pixel, and its pixel array is non-empty, so the box
statistics are well-defined. -/
theorem hottest_box_bounds (h w : Nat) (k : Fin 3 → Fin 3 → ℚ)
    (img : Nat → Nat → ℚ) (box : Nat) (hh : 0 < h) (hw : 0 < w) :
    2 ≤ hotHalf box ∧
    0 ≤ (hottest_box h w k img box).x1 ∧
    (hottest_box h w k img box).x1 ≤ (hottest_box h w k img box).x2 ∧
    (hottest_box h w k img box).x2 ≤ (w : Int) ∧
    0 ≤ (hottest_box h w k img box).y1 ∧
    (hottest_box h w k img box).y1 ≤ (hottest_box h w k img box).y2 ∧
    (hottest_box h w k img box).y2 ≤ (h : Int) ∧
    1 ≤ ((hottest_box h w k img box).x2 - (hottest_box h w k img box).x1) *
        ((hottest_box h w k img box).y2 - (hottest_box h w k img box).y1) ∧
    roiVals (blur h w k img)
      (hottest_box h w k img box).x1 (hottest_box h w k img box).y1
      (hottest_box h w k img box).x2 (hottest_box h w k img box).y2 ≠ [] := by
  obtain ⟨hcy, hcx⟩ := maxLoc_lt h w (blur h w k img) hh hw
  have hhalf : 2 ≤ hotHalf box := le_max_left 2 (box / 2)
  simp only [hottest_box]
  set b2 := blur h w k img with hb2
  set p := maxLoc h w b2 with hp
  set q := hotHalf box with hq
  refine ⟨hhalf, by omega, by omega, by omega, by omega, by omega, by omega, ?_, ?_⟩
  · have h1 : (1 : Int) ≤
        min (w : Int) ((p.2 : Int) + (q : Int)) -
          max 0 ((p.2 : Int) - (q : Int)) := by omega
    have h2 : (1 : Int) ≤
        min (h : Int) ((p.1 : Int) + (q : Int)) -
          max 0 ((p.1 : Int) - (q : Int)) := by omega
    nlinarith [h1, h2]
  · intro hnil
    have hlen := roiVals_length b2
      (max 0 ((p.2 : Int) - (q : Int))) (max 0 ((p.1 : Int) - (q : Int)))
      (min (w : Int) ((p.2 : Int) + (q : Int)))
      (min (h : Int) ((p.1 : Int) + (q : Int)))
    rw [hnil] at hlen
    simp only [List.length_nil] at hlen
    have hy : 0 < (min (h : Int) ((p.1 : Int) + (q : Int)) -
        max 0 ((p.1 : Int) - (q : Int))).toNat := by omega
    have hx : 0 < (min (w : Int) ((p.2 : Int) + (q : Int)) -
        max 0 ((p.2 : Int) - (q : Int))).toNat := by omega
    have hpos := Nat.mul_pos hy hx
    omega

/-- Gaussian box kernel instance used for concrete evaluations. -/
def kbox : Fin 3 → Fin 3 → ℚ := fun _ _ => 1/9

/-- Constant test frame. -/
def imgZero : Nat → Nat → ℚ := fun _ _ => 0

/-- Witness for C4: on a 2×3 frame with box size 24 the box is clipped to
the frame and remains non-degenerate. -/
theorem hottest_box_bounds_witness :
    2 ≤ hotHalf 24 ∧
    0 ≤ (hottest_box 2 3 kbox imgZero 24).x1 ∧
    (hottest_box 2 3 kbox imgZero 24).x1 ≤ (hottest_box 2 3 kbox imgZero 24).x2 ∧
    (hottest_box 2 3 kbox imgZero 24).x2 ≤ (3 : Int) ∧
    0 ≤ (hottest_box 2 3 kbox imgZero 24).y1 ∧
    (hottest_box 2 3 kbox imgZero 24).y1 ≤ (hottest_box 2 3 kbox imgZero 24).y2 ∧
    (hottest_box 2 3 kbox imgZero 24).y2 ≤ (2 : Int) ∧
    1 ≤ ((hottest_box 2 3 kbox imgZero 24).x2 - (hottest_box 2 3 kbox imgZero 24).x1) *
        ((hottest_box 2 3 kbox imgZero 24).y2 - (hottest_box 2 3 kbox imgZero 24).y1) ∧
    roiVals (blur 2 3 kbox imgZero)
      (hottest_box 2 3 kbox imgZero 24).x1 (hottest_box 2 3 kbox imgZero 24).y1
      (hottest_box 2 3 kbox imgZero 24).x2 (hottest_box 2 3 kbox imgZero 24).y2 ≠ [] :=
  hottest_box_bounds 2 3 kbox imgZero 24 (by decide) (by decide)

/-- Smoothing a constant frame with a unit-mass kernel keeps it constant. -/
theorem blur_const (h w : Nat) (k : Fin 3 → Fin 3 → ℚ) (hk : ksum k = 1)
    (c : ℚ) (y x : Nat) : blur h w k (fun _ _ => c) y x = c := by
  unfold blur
  simp only [← Finset.sum_mul]
  rw [← ksum, hk, one_mul]

/-- On a frame whose values are all equal the scan keeps its first pixel. -/
theorem maxLoc_const (h w : Nat) (f : Nat → Nat → ℚ)
    (hconst : ∀ y x, f y x = f 0 0) : maxLoc h w f = (0, 0) := by
  unfold maxLoc
  generalize rasterIdxs h w = l
  induction l with
  | nil => rfl
  | cons q t ih =>
    simp only [List.foldl_cons]
    rw [if_neg]
    · exact ih
    · rw [hconst q.1 q.2]
      exact lt_irrefl _

/-- Claim C5: on a uniform frame the smoothed maximum resolves to the
first pixel in raster order, position `(0, 0)`, for any unit-mass
smoothing kernel, so the hotspot box is the frame-clipped box anchored
at the origin. -/
theorem hottest_box_uniform (h w box : Nat) (c : ℚ) (k : Fin 3 → Fin 3 → ℚ)
    (hh : 0 < h) (hw : 0 < w) (hk : ksum k = 1) :
    maxLoc h w (blur h w k fun _ _ => c) = (0, 0) ∧
    (hottest_box h w k (fun _ _ => c) box).x1 = 0 ∧
    (hottest_box h w k (fun _ _ => c) box).y1 = 0 ∧
    (hottest_box h w k (fun _ _ => c) box).x2 = min (w : Int) (hotHalf box) ∧
    (hottest_box h w k (fun _ _ => c) box).y2 = min (h : Int) (hotHalf box) := by
  have hm : maxLoc h w (blur h w k fun _ _ => c) = (0, 0) :=
    maxLoc_const h w _ fun y x => by
      rw [blur_const h w k hk c y x, blur_const h w k hk c 0 0]
  refine ⟨hm, ?_, ?_, ?_, ?_⟩ <;>
    · simp only [hottest_box, hm]
      omega

/-- Witness for C5: a uniform 2×3 frame of value 5 with the box kernel. -/
theorem hottest_box_uniform_witness :
    maxLoc 2 3 (blur 2 3 kbox fun _ _ => (5 : ℚ)) = (0, 0) ∧
    (hottest_box 2 3 kbox (fun _ _ => (5 : ℚ)) 24).x1 = 0 ∧
    (hottest_box 2 3 kbox (fun _ _ => (5 : ℚ)) 24).y1 = 0 ∧
    (hottest_box 2 3 kbox (fun _ _ => (5 : ℚ)) 24).x2 = min (3 : Int) (hotHalf 24) ∧
    (hottest_box 2 3 kbox (fun _ _ => (5 : ℚ)) 24).y2 = min (2 : Int) (hotHalf 24) :=
  hottest_box_uniform 2 3 24 5 kbox (by decide) (by decide)
    (by norm_num [ksum, kbox, Fin.sum_univ_succ])

/-! ### Acquisition loop (main.py lines 188-299)

Per tick the loop tries the calibrated capture path inside `try:` and on
any exception falls back to the 8-bit path — `mode` is a local recomputed
every iteration, with no state carried across ticks.  Keys are read after
drawing: `q` clears `running` (the iteration still finishes), `c` rotates
the colormap, `s` zeroes `last_save`; then the autosave gate fires when
`time.time() - last_save >= THERMAL_INTERVAL` (3 s), and a completed save
block rotates the colormap and sets `last_save` to the current time.  We
model each tick's wall-clock reading, calibrated-path outcome and pressed
key as inputs; times are rationals. -/

/-- Capture mode of one frame: the calibrated radiometric path or the
8-bit raw fallback. -/
inductive Mode where
  | radiometric : Mode
  | raw8 : Mode
  deriving DecidableEq, Repr

/-- Key pressed during a tick (`q`, `c`, `s`, or nothing). -/
inductive KeyIn where
  | kq : KeyIn
  | kc : KeyIn
  | ks : KeyIn
  | knone : KeyIn
  deriving DecidableEq, Repr

/-- Inputs of one tick: the wall-clock time, whether the calibrated
capture-and-convert path succeeds on this tick, and the pressed key. -/
structure TickIn where
  t : ℚ
  calibOk : Bool
  key : KeyIn
  deriving DecidableEq, Repr

/-- Loop state carried across ticks: colormap index, the last-save
marker, and the running flag. -/
structure LoopState where
  cmapIdx : Nat
  lastSave : ℚ
  running : Bool
  deriving DecidableEq, Repr

/-- Per-tick observable output: the frame's mode and whether a save
occurred on this tick. -/
structure TickOut where
  mode : Mode
  saved : Bool
  deriving DecidableEq, Repr

/-- The fixed autosave interval `THERMAL_INTERVAL` (3 s). -/
def THERMAL_INTERVAL : ℚ := 3

/-- Key handling of lines 230-236: `q` stops the loop, `c` rotates the
colormap, `s` zeroes the last-save marker to force a save. -/
def applyKey (s : LoopState) (k : KeyIn) : LoopState :=
  match k with
  | .kq => { s with running := false }
  | .kc => { s with cmapIdx := (s.cmapIdx + 1) % 6 }
  | .ks => { s with lastSave := 0 }
  | .knone => s

/-- One iteration of the `while running` body (lines 188-299): per-tick
mode selection, key handling, and the autosave gate with its colormap
rotation and marker update. -/
def stepTick (s : LoopState) (tk : TickIn) : LoopState × TickOut :=
  let mode := if tk.calibOk then Mode.radiometric else Mode.raw8
  let s1 := applyKey s tk.key
  if THERMAL_INTERVAL ≤ tk.t - s1.lastSave then
    ({ s1 with cmapIdx := (s1.cmapIdx + 1) % 6, lastSave := tk.t },
      ⟨mode, true⟩)
  else
    (s1, ⟨mode, false⟩)

/-- The loop run over a list of tick inputs, stopping when `running` was
cleared by a previous tick's `q` key. -/
def runTicks (s : LoopState) : List TickIn → LoopState × List TickOut
  | [] => (s, [])
  | tk :: rest =>
    if s.running then
      let p := stepTick s tk
      let r := runTicks p.1 rest
      (r.1, p.2 :: r.2)
    else (s, [])

/-- Tick inputs of the C6 fallback scenario: three consecutive ticks on
which the calibrated path raises, then one on which it succeeds. -/
def fallbackTicks : List TickIn :=
  [⟨100, false, .knone⟩, ⟨101, false, .knone⟩,
   ⟨102, false, .knone⟩, ⟨103, true, .knone⟩]

/-- Claim C6: a frame's mode is Radiometric exactly when the calibrated
path succeeds on that tick, and RawFallback otherwise, for that tick
only — whatever the loop state, so no fallback state is sticky; in the
scenario of three failing ticks followed by a succeeding one, the modes
are RawFallback three times and then immediately Radiometric. -/
theorem stepTick_mode_per_tick :
    (∀ s tk, (stepTick s tk).2.mode =
      if tk.calibOk then Mode.radiometric else Mode.raw8) ∧
    ((runTicks ⟨0, 0, true⟩ fallbackTicks).2.map TickOut.mode =
      [Mode.raw8, Mode.raw8, Mode.raw8, Mode.radiometric]) := by
  constructor
  · intro s tk
    by_cases hc : THERMAL_INTERVAL ≤ tk.t - (applyKey s tk.key).lastSave
    · simp [stepTick, hc]
    · simp [stepTick, hc]
  · norm_num [runTicks, fallbackTicks, stepTick, applyKey, THERMAL_INTERVAL]

/-- Tick inputs of the C8 autosave scenario: three ticks 0.1 s apart,
starting from a zeroed last-save marker. -/
def autosaveTicks : List TickIn :=
  [⟨100, true, .knone⟩, ⟨100 + 1/10, true, .knone⟩,
   ⟨100 + 2/10, true, .knone⟩]

/-- Claim C8: a save occurs on a tick exactly when the wall-clock time
since the (post-key) last-save marker is at least the 3 s interval; the
`s` key zeroes the marker, so the immediately following gate check fires
whenever the wall clock is at least the interval; a tick that saves sets
the marker to the tick's time and one that does not leaves the post-key
marker unchanged; and in the scenario of three ticks 0.1 s apart starting
from a zeroed marker, exactly one save occurs, on the first tick. -/
theorem stepTick_autosave_gate :
    (∀ s tk, (stepTick s tk).2.saved = true ↔
      THERMAL_INTERVAL ≤ tk.t - (applyKey s tk.key).lastSave) ∧
    (∀ s, (applyKey s .ks).lastSave = 0) ∧
    (∀ s tk, tk.key = .ks → THERMAL_INTERVAL ≤ tk.t →
      (stepTick s tk).2.saved = true) ∧
    (∀ s tk, (stepTick s tk).2.saved = true →
      (stepTick s tk).1.lastSave = tk.t) ∧
    (∀ s tk, (stepTick s tk).2.saved = false →
      (stepTick s tk).1.lastSave = (applyKey s tk.key).lastSave) ∧
    ((runTicks ⟨0, 0, true⟩ autosaveTicks).2.map TickOut.saved =
      [true, false, false]) := by
  refine ⟨?_, ?_, ?_, ?_, ?_, ?_⟩
  · intro s tk
    by_cases hc : THERMAL_INTERVAL ≤ tk.t - (applyKey s tk.key).lastSave
    · simp [stepTick, hc]
    · simp [stepTick, hc]
  · intro s; rfl
  · intro s tk hk ht
    have hz : (applyKey s tk.key).lastSave = 0 := by rw [hk]; rfl
    have hc : THERMAL_INTERVAL ≤ tk.t - (applyKey s tk.key).lastSave := by
      rw [hz]; linarith
    simp [stepTick, hc]
  · intro s tk hsaved
    by_cases hc : THERMAL_INTERVAL ≤ tk.t - (applyKey s tk.key).lastSave
    · simp [stepTick, hc]
    · simp [stepTick, hc] at hsaved
  · intro s tk hsaved
    by_cases hc : THERMAL_INTERVAL ≤ tk.t - (applyKey s tk.key).lastSave
    · simp [stepTick, hc] at hsaved
    · simp [stepTick, hc]
  · norm_num [runTicks, autosaveTicks, stepTick, applyKey, THERMAL_INTERVAL]

/-- Witness for C8: with the marker freshly zeroed by the `s` key at wall
clock 100, the gate fires. -/
theorem stepTick_autosave_gate_witness :
    (stepTick ⟨0, 50, true⟩ ⟨100, true, .ks⟩).2.saved = true :=
  stepTick_autosave_gate.2.2.1 ⟨0, 50, true⟩ ⟨100, true, .ks⟩ rfl
    (by norm_num [THERMAL_INTERVAL])

/-! ### Telemetry line parsing (`process_data`, arduino_reader.py lines
46-76; the same logic inlines into `SerialReader.read_and_log`,
serial_logger.py lines 24-65)

The reader splits the stripped line on commas; lines with fewer than two
fields or whose first field is not `DATA` produce no sample; a `GPS` line
with at least 7 fields parses fields 3-6 with Python `float`/`int`;
an `RTC` line with at least 3 fields keeps its timestamp.  Any exception
(e.g. `float` on a non-numeric field) is caught and the line dropped.
Lines are `List Char`; `float`/`int` are modelled on plain decimal
literals, the only shapes the protocol emits. -/

/-- Model of Python `line.split(',')`. -/
def splitComma : List Char → List (List Char)
  | [] => [[]]
  | c :: rest =>
    let r := splitComma rest
    if c = ',' then [] :: r
    else
      match r with
      | [] => [[c]]
      | g :: gs => (c :: g) :: gs

/-- Value of a string of decimal digits. -/
def digitsToNat (ds : List Char) : Nat :=
  ds.foldl (fun n c => n * 10 + (c.toNat - 48)) 0

/-- Model of Python `float(...)` on plain decimal literals (optional
sign, integer part, optional fractional part); `none` models the
`ValueError` that the caller catches. -/
def pyFloat (s : List Char) : Option ℚ :=
  let sign : ℚ := match s with
    | '-' :: _ => -1
    | _ => 1
  let body : List Char := match s with
    | '-' :: rest => rest
    | '+' :: rest => rest
    | _ => s
  let ip := body.takeWhile fun c => c.isDigit
  let rest := body.dropWhile fun c => c.isDigit
  match rest with
  | [] => if ip.isEmpty then none else some (sign * (digitsToNat ip : ℚ))
  | '.' :: fp =>
    if (fp.all fun c => c.isDigit) ∧ (ip ≠ [] ∨ fp ≠ []) then
      some (sign * ((digitsToNat ip : ℚ) +
        (digitsToNat fp : ℚ) / (10 : ℚ) ^ fp.length))
    else none
  | _ => none

/-- Model of Python `int(...)` on decimal literals. -/
def pyInt (s : List Char) : Option Int :=
  match s with
  | '-' :: ds =>
    if ds ≠ [] ∧ (ds.all fun c => c.isDigit) then some (-(digitsToNat ds : Int))
    else none
  | '+' :: ds =>
    if ds ≠ [] ∧ (ds.all fun c => c.isDigit) then some ((digitsToNat ds : Int))
    else none
  | ds =>
    if ds ≠ [] ∧ (ds.all fun c => c.isDigit) then some ((digitsToNat ds : Int))
    else none

/-- A parsed telemetry record: a GPS fix or an RTC timestamp. -/
inductive TelemetrySample where
  | gps (timestamp : List Char) (latitude longitude altitude : ℚ)
      (satellites : Int) : TelemetrySample
  | rtc (timestamp : List Char) : TelemetrySample
  deriving DecidableEq

/-- Model of `ArduinoReader.process_data`: the sample logged for one
input line, `none` when the line is dropped (including the caught
conversion exceptions). -/
def process_data (line : List Char) : Option TelemetrySample :=
  let parts := splitComma line
  if parts.length < 2 then none
  else if parts[0]! ≠ ['D', 'A', 'T', 'A'] then none
  else if parts[1]! = ['G', 'P', 'S'] then
    if 7 ≤ parts.length then
      match pyFloat parts[3]!, pyFloat parts[4]!, pyFloat parts[5]!,
          pyInt parts[6]! with
      | some la, some lo, some al, some sa =>
        some (.gps parts[2]! la lo al sa)
      | _, _, _, _ => none
    else none
  else if parts[1]! = ['R', 'T', 'C'] then
    if 3 ≤ parts.length then some (.rtc parts[2]!) else none
  else none

/-- Counterexample to claim C7: the line `DATA,GPS,t,x,0,0,0` begins with
the marker, declares subtype GPS and has the required 7 fields, yet
yields no sample — Python `float('x')` raises and the exception handler
drops the line, so marker + field count alone do not characterise
acceptance. -/
theorem process_data_counterexample :
    (splitComma "DATA,GPS,t,x,0,0,0".data).length = 7 ∧
    (splitComma "DATA,GPS,t,x,0,0,0".data)[0]! = "DATA".data ∧
    (splitComma "DATA,GPS,t,x,0,0,0".data)[1]! = "GPS".data ∧
    process_data "DATA,GPS,t,x,0,0,0".data = none := by
  refine ⟨by decide, by decide, by decide, ?_⟩
  decide

/-- Claim C7 as amended: a line yields a sample exactly when it begins
with the marker token and either declares `GPS` with at least 7 fields
whose four numeric fields all convert, or declares `RTC` with at least 3
fields; the valid GPS example line parses to the stated sample, and the
short line `DATA,GPS,ts,1,2` yields no sample (and no error, the model
being total). -/
theorem process_data_spec :
    (∀ line : List Char,
      (process_data line).isSome = true ↔
        (2 ≤ (splitComma line).length ∧
          (splitComma line)[0]! = "DATA".data ∧
          (((splitComma line)[1]! = "GPS".data ∧
              7 ≤ (splitComma line).length ∧
              (pyFloat (splitComma line)[3]!).isSome = true ∧
              (pyFloat (splitComma line)[4]!).isSome = true ∧
              (pyFloat (splitComma line)[5]!).isSome = true ∧
              (pyInt (splitComma line)[6]!).isSome = true) ∨
            ((splitComma line)[1]! = "RTC".data ∧
              3 ≤ (splitComma line).length)))) ∧
    process_data "DATA,GPS,20240101120000,37.5,-122.3,10.0,8".data =
      some (.gps "20240101120000".data (75/2) (-1223/10) 10 8) ∧
    process_data "DATA,GPS,ts,1,2".data = none := by
  refine ⟨?_, ?_, by decide⟩
  · intro line
    simp only [process_data]
    set parts := splitComma line with hparts
    by_cases hlen : parts.length < 2
    · rw [if_pos hlen]
      refine ⟨fun hs => Bool.noConfusion hs, ?_⟩
      rintro ⟨h2, -⟩
      exact absurd h2 (by omega)
    · rw [if_neg hlen]
      by_cases hmark : parts[0]! = ['D', 'A', 'T', 'A']
      · rw [if_neg (fun hne => hne hmark)]
        by_cases hgps : parts[1]! = ['G', 'P', 'S']
        · rw [if_pos hgps]
          by_cases h7 : 7 ≤ parts.length
          · rw [if_pos h7]
            rcases h3 : pyFloat parts[3]! with _ | la <;>
              rcases h4 : pyFloat parts[4]! with _ | lo <;>
                rcases h5 : pyFloat parts[5]! with _ | al <;>
                  rcases h6 : pyInt parts[6]! with _ | sa <;>
              first
                | exact ⟨fun _ => ⟨by omega, hmark,
                    Or.inl ⟨hgps, h7, rfl, rfl, rfl, rfl⟩⟩, fun _ => rfl⟩
                | (refine ⟨fun hs => Bool.noConfusion hs, ?_⟩
                   rintro ⟨-, -, ⟨-, -, hf3, hf4, hf5, hf6⟩ | ⟨hr, -⟩⟩
                   · first
                       | exact Bool.noConfusion hf3
                       | exact Bool.noConfusion hf4
                       | exact Bool.noConfusion hf5
                       | exact Bool.noConfusion hf6
                   · exact absurd (hgps.symm.trans hr) (by decide))
          · rw [if_neg h7]
            refine ⟨fun hs => Bool.noConfusion hs, ?_⟩
            rintro ⟨-, -, ⟨-, h7x, -, -, -, -⟩ | ⟨hr, -⟩⟩
            · exact absurd h7x h7
            · exact absurd (hgps.symm.trans hr) (by decide)
        · rw [if_neg hgps]
          by_cases hrtc : parts[1]! = ['R', 'T', 'C']
          · rw [if_pos hrtc]
            by_cases hn3 : 3 ≤ parts.length
            · rw [if_pos hn3]
              exact ⟨fun _ => ⟨by omega, hmark, Or.inr ⟨hrtc, hn3⟩⟩,
                fun _ => rfl⟩
            · rw [if_neg hn3]
              refine ⟨fun hs => Bool.noConfusion hs, ?_⟩
              rintro ⟨-, -, ⟨hg, -, -, -, -, -⟩ | ⟨-, h3x⟩⟩
              · exact absurd hg hgps
              · exact absurd h3x hn3
          · rw [if_neg hrtc]
            refine ⟨fun hs => Bool.noConfusion hs, ?_⟩
            rintro ⟨-, -, ⟨hg, -, -, -, -, -⟩ | ⟨hr, -⟩⟩
            · exact absurd hg hgps
            · exact absurd hr hrtc
      · rw [if_pos hmark]
        refine ⟨fun hs => Bool.noConfusion hs, ?_⟩
        rintro ⟨-, h0, -⟩
        exact absurd h0 hmark
  · have hsplit : splitComma "DATA,GPS,20240101120000,37.5,-122.3,10.0,8".data =
        ["DATA".data, "GPS".data, "20240101120000".data, "37.5".data,
         "-122.3".data, "10.0".data, "8".data] := by decide
    have h35 : pyFloat "37.5".data = some (75 / 2 : ℚ) := by
      have h1 : pyFloat "37.5".data =
          some ((1 : ℚ) * ((digitsToNat ['3', '7'] : ℚ) +
            (digitsToNat ['5'] : ℚ) / (10 : ℚ) ^ (1 : Nat))) := rfl
      have h2 : digitsToNat ['3', '7'] = 37 := by decide
      have h3 : digitsToNat ['5'] = 5 := by decide
      rw [h1, h2, h3]
      norm_num
    have h122 : pyFloat "-122.3".data = some (-1223 / 10 : ℚ) := by
      have h1 : pyFloat "-122.3".data =
          some ((-1 : ℚ) * ((digitsToNat ['1', '2', '2'] : ℚ) +
            (digitsToNat ['3'] : ℚ) / (10 : ℚ) ^ (1 : Nat))) := rfl
      have h2 : digitsToNat ['1', '2', '2'] = 122 := by decide
      have h3 : digitsToNat ['3'] = 3 := by decide
      rw [h1, h2, h3]
      norm_num
    have h10 : pyFloat "10.0".data = some (10 : ℚ) := by
      have h1 : pyFloat "10.0".data =
          some ((1 : ℚ) * ((digitsToNat ['1', '0'] : ℚ) +
            (digitsToNat ['0'] : ℚ) / (10 : ℚ) ^ (1 : Nat))) := rfl
      have h2 : digitsToNat ['1', '0'] = 10 := by decide
      have h3 : digitsToNat ['0'] = 0 := by decide
      rw [h1, h2, h3]
      norm_num
    have h8 : pyInt "8".data = some (8 : Int) := by decide
    simp only [process_data, hsplit]
    norm_num [List.getElem!_cons_zero, List.getElem!_cons_succ, h35, h122,
      h10, h8]

/-- Witness for the amended C7: the acceptance characterisation applied
to the valid example line. -/
theorem process_data_spec_witness :
    (process_data "DATA,GPS,20240101120000,37.5,-122.3,10.0,8".data).isSome
      = true :=
  (process_data_spec.1 "DATA,GPS,20240101120000,37.5,-122.3,10.0,8".data).mpr
    (by refine ⟨by decide, by decide, Or.inl ?_⟩
        exact ⟨by decide, by decide, by decide, by decide, by decide, by decide⟩)

/-! ### Radiometric conversion (claim C9)

`main.py` line 194 calls `cam.to_celsius_from_tlinear(frame16)` on the
`ThermalCamera` instance, but the repository's `thermal_camera.py` is a
capture script that itself imports `ThermalCamera`; the class providing
the conversion is not under src/.  The conversion is therefore modelled
from the spec. -/

/-- Modelled from the spec: the `ThermalCamera.to_celsius_from_tlinear`
method is missing from src/ (only its callers are present).  Per the
spec it "applies a fixed linear transform (scale + offset) consistent
with the sensor's documented calibration mode", pure and stateless; with
the sensor's TLinear convention the scale is 1/100 degree per count and
the offset −273.15 (centikelvin to Celsius). -/
def to_celsius_from_tlinear (x : Nat) : ℚ :=
  (1 / 100 : ℚ) * (x : ℚ) + (-27315 / 100 : ℚ)

/-- Claim C9: on every valid 16-bit input the conversion is the fixed
affine map `a * x + b` with `a = 1/100`, `b = -273.15` — a pure function
of its argument alone, so it is deterministic with no hidden state. -/
theorem to_celsius_affine (x : Nat) (hx : x < 65536) :
    to_celsius_from_tlinear x = (1 / 100 : ℚ) * (x : ℚ) + (-27315 / 100 : ℚ) :=
  rfl

/-- Witness for C9: the conversion at raw count 27315 (0 °C). -/
theorem to_celsius_affine_witness :
    to_celsius_from_tlinear 27315 =
      (1 / 100 : ℚ) * ((27315 : Nat) : ℚ) + (-27315 / 100 : ℚ) :=
  to_celsius_affine 27315 (by norm_num)

end ThermalLogger
